import Mathlib

/-!
Shallow embedding of the Game-of-Life engine:
* the grid stepper and counters from the distributor file
  (`mod`, `aliveNeighbours`, `getNumAliveCells`, the per-generation block of
  `distributor`),
* the simulation loop of `distributor` with its cancel / pause select,
* the engine operations from `engine/main.go`
  (`IsAlreadyRunning`, `Start`, `Continue`, `Save`, `Pause`, `GetAliveCells`)
  acting on the global engine state.

Go slices of bytes become `List Nat`; Go `int` becomes `Int`; an indexing
operation that would panic in Go is `Option`-valued here (`none` = panic).
Channels are modelled by a schedule of signals observed by the loop at each
generation boundary, and by explicit event traces for deliveries and the
cancellation-complete signal.
-/

/-- `Params` from the source: turn limit, thread hint, grid extents. -/
structure Params where
  Turns : Int
  Threads : Int
  ImageWidth : Int
  ImageHeight : Int
deriving DecidableEq, Repr

/-- A grid: rows of byte cells (row-major, as on the wire). -/
abbrev Grid := List (List Nat)

/-- `func mod(x, m int) int { return (x + m) % m }`.
Go's `%` truncates towards zero, which is `Int.tmod`. -/
def mod (x m : Int) : Int := (x + m).tmod m

/-- Reading `world[y][x]` in Go: `none` models the out-of-bounds panic. -/
def cellAt? (world : Grid) (y x : Int) : Option Nat :=
  if 0 ≤ y ∧ y < (world.length : Int) then
    let row := world.getD y.toNat []
    if 0 ≤ x ∧ x < (row.length : Int) then some (row.getD x.toNat 0) else none
  else none

/-- Total accessor used on the specification side and for grids whose shape
has already been established: `world[y][x]` with default `0`. -/
def cell (world : Grid) (y x : Nat) : Nat := (world.getD y []).getD x 0

/-- `aliveNeighbours` from the source: the two loops `i, j ∈ {-1,0,1}`,
skipping `(0,0)`, counting cells `≠ 0` at `world[mod(y+i,H)][mod(x+j,W)]`. -/
def aliveNeighbours (world : Grid) (y x : Int) (p : Params) : Option Int :=
  ([-1, 0, 1] : List Int).foldlM (fun acc i =>
    ([-1, 0, 1] : List Int).foldlM (fun acc2 j =>
      if i ≠ 0 ∨ j ≠ 0 then
        (cellAt? world (mod (y + i) p.ImageHeight) (mod (x + j) p.ImageWidth)).map
          (fun c => if c ≠ 0 then acc2 + 1 else acc2)
      else some acc2) acc) 0

/-- `getNumAliveCells` from the source: count the cells equal to 255. -/
def getNumAliveCells (p : Params) (world : Grid) : Option Int :=
  (List.range p.ImageHeight.toNat).foldlM (fun acc y =>
    (List.range p.ImageWidth.toNat).foldlM (fun acc2 x =>
      (cellAt? world (Int.ofNat y) (Int.ofNat x)).map
        (fun c => if c = 255 then acc2 + 1 else acc2)) acc) 0

/-- The body of the per-cell update in `distributor`'s default branch:
read `world[y][x]`, apply the survival / birth rule to `tempWorld[y][x]`. -/
def computeCell (world : Grid) (p : Params) (y x : Int) : Option Nat := do
  let n ← aliveNeighbours world y x p
  let c ← cellAt? world y x
  pure (if c = 255 then (if n = 2 ∨ n = 3 then 255 else 0)
        else (if n = 3 then 255 else 0))

/-- Phase one of a generation: the double loop that fills `tempWorld`
(`tempWorld` is `ImageHeight × ImageWidth` and every entry is written
exactly once, so it is exactly this matrix of `computeCell` results). -/
def runGeneration (p : Params) (world : Grid) : Option Grid :=
  (List.range p.ImageHeight.toNat).mapM (fun y =>
    (List.range p.ImageWidth.toNat).mapM (fun x =>
      computeCell world p (Int.ofNat y) (Int.ofNat x)))

/-- Phase two of a generation: `world[y][x] = tempWorld[y][x]` for
`y < ImageHeight`, `x < ImageWidth`; entries of `world` outside that block
keep their values.  The `temp` reads use the total accessor: phase two is
only reached after phase one succeeded, and then `temp` has exactly the
loop's dimensions by construction. -/
def copyBack (p : Params) (world temp : Grid) : Grid :=
  (List.range world.length).map (fun y =>
    let row := world.getD y []
    if (Int.ofNat y) < p.ImageHeight then
      (List.range row.length).map (fun x =>
        if (Int.ofNat x) < p.ImageWidth then cell temp y x else row.getD x 0)
    else row)

/-- One full generation of the default branch: compute `tempWorld`, then
copy it back into `world`; the value of the `world` array afterwards. -/
def runGenerationWorld (p : Params) (world : Grid) : Option Grid :=
  (runGeneration p world).map (copyBack p world)

/-! Specification-side definitions, written from the claims' words, to be
compared with the embedded code. -/

/-- The 8 Moore neighbourhood offsets. -/
def mooreOffsets : List (Int × Int) :=
  [(-1, -1), (-1, 0), (-1, 1), (0, -1), (0, 1), (1, -1), (1, 0), (1, 1)]

/-- Spec-side neighbour count: alive (= 255) neighbours among the 8 Moore
neighbours at indices `(coordinate + offset) mod extent` (mathematical mod)
in both axes. -/
def specAliveNeighbours (world : Grid) (y x H W : Int) : Int :=
  ((mooreOffsets.filter (fun ij =>
    cell world ((y + ij.1).emod H).toNat ((x + ij.2).emod W).toNat = 255)).length : Int)

/-- Spec-side cell rule: an alive cell stays alive iff its count is 2 or 3,
a dead cell becomes alive iff its count is exactly 3, all else dead. -/
def specCellRule (old : Nat) (n : Int) : Nat :=
  if old = 255 then (if n = 2 ∨ n = 3 then 255 else 0)
  else (if n = 3 then 255 else 0)

/-- The one-generation step as a total function (the grid stepper): the
`ImageHeight × ImageWidth` matrix of rule results, neighbour counts taken
with the code's wraparound indexing. -/
def gridStep (p : Params) (world : Grid) : Grid :=
  (List.range p.ImageHeight.toNat).map (fun y =>
    (List.range p.ImageWidth.toNat).map (fun x =>
      specCellRule (cell world y x)
        (specAliveNeighbours world (y : Int) (x : Int) p.ImageHeight p.ImageWidth)))

/-- Well-formedness of a grid for parameters `p`: exactly
`ImageHeight` rows of exactly `ImageWidth` cells, every cell 0 or 255. -/
def WF (p : Params) (world : Grid) : Prop :=
  world.length = p.ImageHeight.toNat ∧
  (∀ row ∈ world, row.length = p.ImageWidth.toNat) ∧
  (∀ row ∈ world, ∀ c ∈ row, c = 0 ∨ c = 255)

instance (p : Params) (world : Grid) : Decidable (WF p world) := by
  unfold WF; infer_instance

/-! ### Basic lemmas about the embedded operations -/

theorem mod_eq_emod (x m : Int) (hm : 0 < m) (hx : 0 ≤ x + m) : mod x m = x.emod m := by
  unfold mod
  rw [Int.tmod_eq_emod (by omega) (by omega)]
  simp
  rfl

theorem mod_bounds (x m : Int) (hm : 0 < m) (hx : 0 ≤ x + m) :
    0 ≤ mod x m ∧ mod x m < m := by
  unfold mod
  rw [Int.tmod_eq_emod (by omega) (by omega)]
  exact ⟨Int.emod_nonneg _ (by omega), Int.emod_lt_of_pos _ hm⟩

theorem getD_mem_or {α : Type} (l : List α) (n : Nat) (d : α) :
    l.getD n d ∈ l ∨ l.getD n d = d := by
  rw [List.getD_eq_getElem?_getD]
  cases h : l[n]? with
  | none => right; rfl
  | some v =>
    left
    simpa using List.getElem?_mem h

theorem cell_invariant {p : Params} {world : Grid} (h : WF p world) (a b : Nat) :
    cell world a b = 0 ∨ cell world a b = 255 := by
  unfold cell
  rcases h with ⟨h1, h2, h3⟩
  rcases getD_mem_or world a [] with hr | hr
  · rcases getD_mem_or (world.getD a []) b 0 with hc | hc
    · exact h3 _ hr _ hc
    · left; exact hc
  · rw [hr]; left; rfl

theorem getD_mem_of_lt {α : Type} (l : List α) {n : Nat} (d : α) (h : n < l.length) :
    l.getD n d ∈ l := by
  rw [List.getD_eq_getElem?_getD, List.getElem?_eq_getElem h]
  exact List.getElem_mem _

theorem cellAt?_eq {world : Grid} {y x : Int} (hy : 0 ≤ y) (hy2 : y < (world.length : Int))
    (hx : 0 ≤ x) (hx2 : x < ((world.getD y.toNat []).length : Int)) :
    cellAt? world y x = some (cell world y.toNat x.toNat) := by
  unfold cellAt? cell
  rw [if_pos ⟨hy, hy2⟩, if_pos ⟨hx, hx2⟩]

theorem foldlM_add {α : Type} (g : α → Int) (l : List α) (F : Int → α → Option Int)
    (h : ∀ acc b, b ∈ l → F acc b = some (acc + g b)) :
    ∀ acc, l.foldlM F acc = some (acc + (l.map g).sum) := by
  induction l with
  | nil => intro acc; simp [List.foldlM]
  | cons b t ih =>
    intro acc
    simp only [List.foldlM, h acc b (List.mem_cons_self _ _)]
    have := ih (fun acc c hc => h acc c (List.mem_cons_of_mem _ hc)) (acc + g b)
    simpa [add_assoc] using this

theorem aliveNeighbours_spec {p : Params} {world : Grid} (hw : WF p world)
    (hH : 0 < p.ImageHeight) (hW : 0 < p.ImageWidth)
    {y x : Int} (hy0 : 0 ≤ y) (hy1 : y < p.ImageHeight) (hx0 : 0 ≤ x) (hx1 : x < p.ImageWidth) :
    aliveNeighbours world y x p =
      some (specAliveNeighbours world y x p.ImageHeight p.ImageWidth) := by
  have hlen := hw.1
  have hrowlen : ∀ a : Nat, a < world.length → (List.getD world a []).length = p.ImageWidth.toNat :=
    fun a ha => hw.2.1 _ (getD_mem_of_lt world [] ha)
  have hacc : ∀ i j : Int, -1 ≤ i → i ≤ 1 → -1 ≤ j → j ≤ 1 →
      cellAt? world (mod (y + i) p.ImageHeight) (mod (x + j) p.ImageWidth) =
      some (cell world ((y + i).emod p.ImageHeight).toNat ((x + j).emod p.ImageWidth).toNat) := by
    intro i j hi1 hi2 hj1 hj2
    have hmy := mod_bounds (y + i) p.ImageHeight hH (by omega)
    have hmx := mod_bounds (x + j) p.ImageWidth hW (by omega)
    have hey := mod_eq_emod (y + i) p.ImageHeight hH (by omega)
    have hex := mod_eq_emod (x + j) p.ImageWidth hW (by omega)
    have hylt : (mod (y + i) p.ImageHeight).toNat < world.length := by
      rw [hlen]; omega
    rw [cellAt?_eq hmy.1 (by omega) hmx.1 (by rw [hrowlen _ hylt]; omega), hey, hex]
  have h1 := cell_invariant hw
  -- indicator for one neighbour probe
  set gI : Int → Int → Int := fun i j =>
    if i ≠ 0 ∨ j ≠ 0 then
      (if cell world ((y + i).emod p.ImageHeight).toNat ((x + j).emod p.ImageWidth).toNat ≠ 0
       then 1 else 0)
    else 0 with hgI
  have hinner : ∀ i : Int, -1 ≤ i → i ≤ 1 → ∀ acc2 : Int,
      ([-1, 0, 1] : List Int).foldlM (fun acc2 j =>
        if i ≠ 0 ∨ j ≠ 0 then
          (cellAt? world (mod (y + i) p.ImageHeight) (mod (x + j) p.ImageWidth)).map
            (fun c => if c ≠ 0 then acc2 + 1 else acc2)
        else some acc2) acc2 = some (acc2 + (([-1, 0, 1] : List Int).map (gI i)).sum) := by
    intro i hi1 hi2 acc2
    refine foldlM_add (gI i) _ _ ?_ acc2
    intro acc b hb
    have hb' : b = -1 ∨ b = 0 ∨ b = 1 := by simpa using hb
    by_cases hc : i ≠ 0 ∨ b ≠ 0
    · rw [if_pos hc, hacc i b hi1 hi2 (by omega) (by omega)]
      rw [hgI]
      simp only [if_pos hc, Option.map_some']
      congr 1
      split_ifs <;> omega
    · rw [if_neg hc, hgI]
      simp only [if_neg hc]
      simp
  have houter : aliveNeighbours world y x p =
      some (0 + (([-1, 0, 1] : List Int).map
        (fun i => (([-1, 0, 1] : List Int).map (gI i)).sum)).sum) := by
    unfold aliveNeighbours
    refine foldlM_add _ _ _ ?_ 0
    intro acc b hb
    have hb' : b = -1 ∨ b = 0 ∨ b = 1 := by simpa using hb
    rw [hinner b (by omega) (by omega) acc]
  rw [houter]
  congr 1
  simp only [List.map_cons, List.map_nil, List.sum_cons, List.sum_nil, hgI]
  norm_num
  have hcond : ∀ c : Nat, c = 0 ∨ c = 255 →
      ((if c = 0 then (0 : Int) else 1) = (if c = 255 then (1 : Int) else 0)) := by
    intro c hc; rcases hc with h | h <;> simp [h]
  rw [specAliveNeighbours, ← List.countP_eq_length_filter]
  simp only [mooreOffsets, List.countP_cons, List.countP_nil, decide_eq_true_eq]
  push_cast
  simp only [add_zero]
  iterate 8 rw [hcond _ (h1 _ _)]
  ring

theorem mapM_eq_some {α β : Type} (l : List α) (f : α → Option β) (g : α → β)
    (h : ∀ a ∈ l, f a = some (g a)) : l.mapM f = some (l.map g) := by
  induction l with
  | nil => rfl
  | cons b t ih =>
    rw [List.mapM_cons, h b (List.mem_cons_self _ _),
        ih (fun a ha => h a (List.mem_cons_of_mem _ ha))]
    rfl

theorem computeCell_eq {p : Params} {world : Grid} (hw : WF p world)
    (hH : 0 < p.ImageHeight) (hW : 0 < p.ImageWidth)
    {y x : Int} (hy0 : 0 ≤ y) (hy1 : y < p.ImageHeight) (hx0 : 0 ≤ x) (hx1 : x < p.ImageWidth) :
    computeCell world p y x =
      some (specCellRule (cell world y.toNat x.toNat)
        (specAliveNeighbours world y x p.ImageHeight p.ImageWidth)) := by
  have hlen := hw.1
  have hrowlen : ∀ a : Nat, a < world.length → (List.getD world a []).length = p.ImageWidth.toNat :=
    fun a ha => hw.2.1 _ (getD_mem_of_lt world [] ha)
  have hylt : y.toNat < world.length := by rw [hlen]; omega
  unfold computeCell
  rw [aliveNeighbours_spec hw hH hW hy0 hy1 hx0 hx1,
      cellAt?_eq hy0 (by omega) hx0 (by rw [hrowlen _ hylt]; omega)]
  rfl

theorem runGeneration_eq {p : Params} {world : Grid} (hw : WF p world)
    (hH : 0 < p.ImageHeight) (hW : 0 < p.ImageWidth) :
    runGeneration p world = some (gridStep p world) := by
  unfold runGeneration gridStep
  refine mapM_eq_some _ _ _ ?_
  intro a ha
  have ha' : a < p.ImageHeight.toNat := by simpa using ha
  refine mapM_eq_some _ _ _ ?_
  intro b hb
  have hb' : b < p.ImageWidth.toNat := by simpa using hb
  have hcast : ∀ n : Nat, Int.ofNat n = (n : Int) := fun n => rfl
  rw [computeCell_eq hw hH hW (by rw [hcast]; omega) (by rw [hcast]; omega)
      (by rw [hcast]; omega) (by rw [hcast]; omega)]
  simp [hcast]

theorem getD_lt {α : Type} (l : List α) {n : Nat} (d : α) (h : n < l.length) :
    l.getD n d = l[n] := by
  rw [List.getD_eq_getElem?_getD, List.getElem?_eq_getElem h]
  rfl

theorem specCellRule_cases (old : Nat) (n : Int) :
    specCellRule old n = 0 ∨ specCellRule old n = 255 := by
  unfold specCellRule
  split_ifs <;> simp

theorem gridStep_length (p : Params) (world : Grid) :
    (gridStep p world).length = p.ImageHeight.toNat := by
  simp [gridStep]

theorem gridStep_rows (p : Params) (world : Grid) :
    ∀ row ∈ gridStep p world, row.length = p.ImageWidth.toNat := by
  intro row hrow
  simp only [gridStep, List.mem_map] at hrow
  obtain ⟨y, _, rfl⟩ := hrow
  simp

theorem WF_gridStep (p : Params) (world : Grid) : WF p (gridStep p world) := by
  refine ⟨gridStep_length p world, gridStep_rows p world, ?_⟩
  intro row hrow c hc
  simp only [gridStep, List.mem_map] at hrow
  obtain ⟨y, _, rfl⟩ := hrow
  simp only [List.mem_map] at hc
  obtain ⟨x, _, rfl⟩ := hc
  exact specCellRule_cases _ _

theorem cell_gridStep (p : Params) (world : Grid) {y x : Nat}
    (hy : y < p.ImageHeight.toNat) (hx : x < p.ImageWidth.toNat) :
    cell (gridStep p world) y x =
      specCellRule (cell world y x)
        (specAliveNeighbours world (y : Int) (x : Int) p.ImageHeight p.ImageWidth) := by
  unfold cell gridStep
  rw [getD_lt _ [] (by simpa using hy)]
  rw [List.getElem_map, List.getElem_range]
  rw [getD_lt _ 0 (by simpa using hx)]
  rw [List.getElem_map, List.getElem_range]
  rfl

theorem copyBack_eq {p : Params} {world temp : Grid}
    (hwl : world.length = p.ImageHeight.toNat)
    (hwr : ∀ row ∈ world, row.length = p.ImageWidth.toNat)
    (htl : temp.length = p.ImageHeight.toNat)
    (htr : ∀ row ∈ temp, row.length = p.ImageWidth.toNat) :
    copyBack p world temp = temp := by
  have hcast : ∀ n : Nat, Int.ofNat n = (n : Int) := fun n => rfl
  apply List.ext_getElem
  · simp [copyBack, hwl, htl]
  · intro y hy1 hy2
    simp only [copyBack, List.length_map, List.length_range] at hy1
    have hyH : y < p.ImageHeight.toNat := by omega
    simp only [copyBack, List.getElem_map, List.getElem_range]
    rw [if_pos (by rw [hcast]; omega)]
    have hrowmem : world.getD y [] ∈ world := getD_mem_of_lt world [] (by omega)
    have hrowlen : (world.getD y []).length = p.ImageWidth.toNat := hwr _ hrowmem
    apply List.ext_getElem
    · simp only [List.length_map, List.length_range, hrowlen]
      exact (htr _ (List.getElem_mem _)).symm
    · intro x hx1 hx2
      simp only [List.length_map, List.length_range, hrowlen] at hx1
      simp only [List.getElem_map, List.getElem_range]
      rw [if_pos (by rw [hcast]; omega)]
      unfold cell
      rw [getD_lt _ [] (by omega), getD_lt _ 0 (by rwa [htr _ (List.getElem_mem _)])]

theorem runGenerationWorld_eq {p : Params} {world : Grid} (hw : WF p world)
    (hH : 0 < p.ImageHeight) (hW : 0 < p.ImageWidth) :
    runGenerationWorld p world = some (gridStep p world) := by
  unfold runGenerationWorld
  rw [runGeneration_eq hw hH hW, Option.map_some',
      copyBack_eq hw.1 hw.2.1 (gridStep_length p world) (gridStep_rows p world)]

/-- Total count of cells equal to 255, the convention of `getNumAliveCells`. -/
def count255 (p : Params) (world : Grid) : Int :=
  ((List.range p.ImageHeight.toNat).map (fun y =>
    ((List.range p.ImageWidth.toNat).map (fun x =>
      if cell world y x = 255 then (1 : Int) else 0)).sum)).sum

/-- Total count of cells different from 0, the aliveness convention of
`aliveNeighbours`. -/
def countNe0 (p : Params) (world : Grid) : Int :=
  ((List.range p.ImageHeight.toNat).map (fun y =>
    ((List.range p.ImageWidth.toNat).map (fun x =>
      if cell world y x ≠ 0 then (1 : Int) else 0)).sum)).sum

theorem getNumAliveCells_eq {p : Params} {world : Grid}
    (hwl : world.length = p.ImageHeight.toNat)
    (hwr : ∀ row ∈ world, row.length = p.ImageWidth.toNat) :
    getNumAliveCells p world = some (count255 p world) := by
  have hcast : ∀ n : Nat, Int.ofNat n = (n : Int) := fun n => rfl
  have hrowlen : ∀ a : Nat, a < world.length → (List.getD world a []).length = p.ImageWidth.toNat :=
    fun a ha => hwr _ (getD_mem_of_lt world [] ha)
  have hinner : ∀ y : Nat, y < p.ImageHeight.toNat → ∀ acc2 : Int,
      (List.range p.ImageWidth.toNat).foldlM (fun acc2 x =>
        (cellAt? world (Int.ofNat y) (Int.ofNat x)).map
          (fun c => if c = 255 then acc2 + 1 else acc2)) acc2 =
      some (acc2 + ((List.range p.ImageWidth.toNat).map (fun x =>
        if cell world y x = 255 then (1 : Int) else 0)).sum) := by
    intro y hy acc2
    refine foldlM_add _ _ _ ?_ acc2
    intro acc b hb
    have hb' : b < p.ImageWidth.toNat := by simpa using hb
    have hylt : y < world.length := by omega
    have hb1 : (0 : Int) ≤ Int.ofNat y := by rw [hcast]; omega
    have hb2 : Int.ofNat y < (world.length : Int) := by rw [hcast]; omega
    have hb3 : (0 : Int) ≤ Int.ofNat b := by rw [hcast]; omega
    have hb4 : Int.ofNat b < ((world.getD (Int.ofNat y).toNat []).length : Int) := by
      rw [show (Int.ofNat y).toNat = y from rfl, hrowlen _ hylt, hcast]
      omega
    rw [cellAt?_eq hb1 hb2 hb3 hb4]
    rw [show (Int.ofNat y).toNat = y from rfl, show (Int.ofNat b).toNat = b from rfl]
    simp only [Option.map_some']
    congr 1
    split_ifs <;> omega
  unfold getNumAliveCells count255
  have hout := foldlM_add (fun y : Nat => ((List.range p.ImageWidth.toNat).map (fun x =>
      if cell world y x = 255 then (1 : Int) else 0)).sum)
    (List.range p.ImageHeight.toNat)
    (fun acc y => (List.range p.ImageWidth.toNat).foldlM (fun acc2 x =>
      (cellAt? world (Int.ofNat y) (Int.ofNat x)).map
        (fun c => if c = 255 then acc2 + 1 else acc2)) acc)
    (fun acc b hb => hinner b (by simpa using hb) acc) 0
  rw [hout]
  simp

theorem count255_eq_countNe0 {p : Params} {world : Grid} (hw : WF p world) :
    count255 p world = countNe0 p world := by
  unfold count255 countNe0
  congr 1
  refine List.map_congr_left ?_
  intro y _
  congr 1
  refine List.map_congr_left ?_
  intro x _
  rcases cell_invariant hw y x with h | h <;> simp [h]

/-! ### The simulation loop and the engine state

`distributor` checks its channels once per generation boundary via `select`.
The signal it observes at boundary `t` is modelled by a schedule
`sched : Nat → Sig`; `Sig.go` is the `default` branch (no signal pending),
`Sig.pause` covers a whole pause..resume span (the loop blocks inside the
iteration and touches nothing until the resume arrives), `Sig.cancel` is a
pending cancel.  Deliveries on `FINISHEDCHANNEL` and the
`DONECANCELINGCHANNEL` send are recorded in an event trace, in program
order. -/

inductive Sig where
  | cancel
  | pause
  | go
deriving DecidableEq, Repr

inductive CEvent where
  | deliver (g : Grid)
  | doneCancel
  | callerResumes
deriving DecidableEq, Repr

/-- The package-level mutable variables of the engine. -/
structure EngState where
  WORLD : Grid
  PARAMS : Params
  ALIVECELLS : Int
  COMPLETEDTURNS : Int
  NUMBEROFCONTINUES : Int
deriving DecidableEq, Repr

/-- The zero values the globals hold before any call: nil grid, zero
parameters, zero counters. -/
def initState : EngState :=
  { WORLD := [], PARAMS := { Turns := 0, Threads := 0, ImageWidth := 0, ImageHeight := 0 },
    ALIVECELLS := 0, COMPLETEDTURNS := 0, NUMBEROFCONTINUES := 0 }

structure AliveCellsReply where
  AliveCells : Int
  CompletedTurns : Int
deriving DecidableEq, Repr

structure SaveReply where
  CompletedTurns : Int
  World : Grid
deriving DecidableEq, Repr

structure PauseReply where
  CompletedTurns : Int
  World : Grid
deriving DecidableEq, Repr

/-- `for i:=0; i < NUMBEROFCONTINUES; i++ { FINISHEDCHANNEL <- world }`. -/
def deliverAll (world : Grid) (n : Int) : List CEvent :=
  List.replicate n.toNat (CEvent.deliver world)

/-- The code after the turn loop: zero the progress counters, send the final
grid to every registered waiter, zero the waiter count. -/
def epilogue (world : Grid) (s : EngState) : Grid × EngState × List CEvent :=
  (world,
   { s with ALIVECELLS := 0, COMPLETEDTURNS := 0, NUMBEROFCONTINUES := 0 },
   deliverAll world s.NUMBEROFCONTINUES)

/-- The `case <- CANCELCHANNEL` branch: zero the progress counters, send the
current grid to every waiter, zero the waiter count, signal
cancellation-complete on `DONECANCELINGCHANNEL`, return the current grid. -/
def cancelBranch (world : Grid) (s : EngState) : Grid × EngState × List CEvent :=
  (world,
   { s with ALIVECELLS := 0, COMPLETEDTURNS := 0, NUMBEROFCONTINUES := 0 },
   deliverAll world s.NUMBEROFCONTINUES ++ [CEvent.doneCancel])

/-- Outcome of one iteration of the turn loop: either the loop returns
(cancel branch) or it continues with the next turn index. -/
inductive IterOut where
  | ret (g : Grid) (s : EngState) (tr : List CEvent)
  | next (g : Grid) (s : EngState)

/-- One iteration of `for turns := 0; turns < p.Turns; turns++` at index `t`:
the `select` dispatch.  The `default` branch runs one generation in place,
publishes `WORLD`, recomputes `ALIVECELLS` and sets
`COMPLETEDTURNS = turns + 1`.  The pause branch blocks until resume and
touches nothing. -/
def loopIter (p : Params) (sig : Sig) (t : Nat) (world : Grid) (s : EngState) :
    Option IterOut :=
  match sig with
  | Sig.cancel =>
    match cancelBranch world s with
    | (g, s', tr) => some (IterOut.ret g s' tr)
  | Sig.pause => some (IterOut.next world s)
  | Sig.go =>
    match runGenerationWorld p world with
    | none => none
    | some w =>
      match getNumAliveCells p w with
      | none => none
      | some a =>
        some (IterOut.next w
          { s with WORLD := w, ALIVECELLS := a, COMPLETEDTURNS := (t : Int) + 1 })

/-- The turn loop from index `t` with `fuel` iterations left, followed by the
epilogue.  `fuel` is `p.Turns - t` (the loop bound). -/
def loopFrom (p : Params) (sched : Nat → Sig) :
    Nat → Nat → Grid → EngState → Option (Grid × EngState × List CEvent)
  | _, 0, world, s => some (epilogue world s)
  | t, fuel + 1, world, s =>
    match loopIter p (sched t) t world s with
    | none => none
    | some (IterOut.ret g s' tr) => some (g, s', tr)
    | some (IterOut.next g s') => loopFrom p sched (t + 1) fuel g s'

/-- `distributor(p, world)`: set `PARAMS`, run the turn loop for `p.Turns`
iterations from index 0 (if `p.Turns ≤ 0` the loop body never runs). -/
def distributor (p : Params) (sched : Nat → Sig) (world : Grid) (s : EngState) :
    Option (Grid × EngState × List CEvent) :=
  loopFrom p sched 0 p.Turns.toNat world { s with PARAMS := p }

/-- `Engine.Start`: run the distributor to completion, publish the returned
grid as `WORLD` and reply with it.  The caller blocks for the whole run
because the call is synchronous. -/
def engineStart (p : Params) (sched : Nat → Sig) (world : Grid) (s : EngState) :
    Option (Grid × EngState × List CEvent) :=
  match distributor p sched world s with
  | none => none
  | some (g, s', tr) => some (g, { s' with WORLD := g }, tr)

/-- The registration half of `Engine.Continue`: `NUMBEROFCONTINUES++`
(the reply is one `CEvent.deliver` received from `FINISHEDCHANNEL`). -/
def engineContinueRegister (s : EngState) : EngState :=
  { s with NUMBEROFCONTINUES := s.NUMBEROFCONTINUES + 1 }

/-- `Engine.Save`: read `COMPLETEDTURNS` and `WORLD`; mutates nothing. -/
def engineSave (s : EngState) : SaveReply × EngState :=
  ({ CompletedTurns := s.COMPLETEDTURNS, World := s.WORLD }, s)

/-- `Engine.GetAliveCells`: read `ALIVECELLS` and `COMPLETEDTURNS`. -/
def engineGetAliveCells (s : EngState) : AliveCellsReply × EngState :=
  ({ AliveCells := s.ALIVECELLS, CompletedTurns := s.COMPLETEDTURNS }, s)

/-- `Engine.Pause`: send `true` on `PAUSECHANNEL` (the `Sig.pause` entry in
the loop's schedule) and reply with the current progress snapshot. -/
def enginePause (s : EngState) : PauseReply × EngState :=
  ({ CompletedTurns := s.COMPLETEDTURNS, World := s.WORLD }, s)

/-- Whether a `distributor` call is in flight, and if so where it stands:
`running t fuel world` is a loop blocked at the boundary of iteration `t`
with `fuel` iterations left and current grid `world`. -/
inductive RunPhase where
  | idle
  | running (t : Nat) (fuel : Nat) (world : Grid)
deriving DecidableEq, Repr

/-- A system configuration: the loop's position plus the shared globals. -/
structure Config where
  phase : RunPhase
  state : EngState
deriving DecidableEq, Repr

/-- A run is active iff a distributor loop is in flight. -/
def runActive (c : Config) : Bool :=
  match c.phase with
  | RunPhase.idle => false
  | RunPhase.running _ _ _ => true

/-- `Engine.IsAlreadyRunning`: the guard is `COMPLETEDTURNS - 1 > 0`.  Inside
it, equal parameters reply true; different parameters send cancel and block
on `DONECANCELINGCHANNEL`, which rendezvouses with the loop's cancel branch
(`none` models the permanent block when no loop is there to answer).  The
caller's reply is only produced after `CEvent.callerResumes`, which follows
the loop's `CEvent.doneCancel`. -/
def isAlreadyRunning (p : Params) (c : Config) : Option (Bool × Config × List CEvent) :=
  if c.state.COMPLETEDTURNS - 1 > 0 then
    if c.state.PARAMS = p then some (true, c, [])
    else
      match c.phase with
      | RunPhase.running _ _ world =>
        match cancelBranch world c.state with
        | (_, s', tr) =>
          some (false, { phase := RunPhase.idle, state := s' }, tr ++ [CEvent.callerResumes])
      | RunPhase.idle => none
  else some (false, c, [])

theorem loopFrom_go {p : Params} (sched : Nat → Sig) (hH : 0 < p.ImageHeight)
    (hW : 0 < p.ImageWidth) :
    ∀ (fuel t : Nat) (world : Grid) (s : EngState), WF p world →
    (∀ u, t ≤ u → u < t + fuel → sched u = Sig.go) →
    loopFrom p sched t fuel world s =
      some ((fun w => gridStep p w)^[fuel] world,
        { s with
            WORLD := if fuel = 0 then s.WORLD else (fun w => gridStep p w)^[fuel] world,
            ALIVECELLS := 0, COMPLETEDTURNS := 0, NUMBEROFCONTINUES := 0 },
        deliverAll ((fun w => gridStep p w)^[fuel] world) s.NUMBEROFCONTINUES) := by
  intro fuel
  induction fuel with
  | zero =>
    intro t world s hw hsched
    simp [loopFrom, epilogue]
  | succ fuel ih =>
    intro t world s hw hsched
    have hgo : sched t = Sig.go := hsched t le_rfl (by omega)
    have hstep : runGenerationWorld p world = some (gridStep p world) :=
      runGenerationWorld_eq hw hH hW
    have hcount : getNumAliveCells p (gridStep p world) =
        some (count255 p (gridStep p world)) :=
      getNumAliveCells_eq (gridStep_length p world) (gridStep_rows p world)
    rw [loopFrom, hgo]
    simp only [loopIter, hstep, hcount]
    rw [ih (t + 1) (gridStep p world) _ (WF_gridStep p world)
        (fun u hu1 hu2 => hsched u (by omega) (by omega))]
    rw [← Function.iterate_succ_apply]
    cases fuel with
    | zero => simp
    | succ m => simp

theorem loopFrom_cancel {p : Params} (sched : Nat → Sig) (hH : 0 < p.ImageHeight)
    (hW : 0 < p.ImageWidth) :
    ∀ (k t fuel : Nat) (world : Grid) (s : EngState), WF p world →
    (∀ u, t ≤ u → u < t + k → sched u = Sig.go) →
    sched (t + k) = Sig.cancel → k < fuel →
    loopFrom p sched t fuel world s =
      some ((fun w => gridStep p w)^[k] world,
        { s with
            WORLD := if k = 0 then s.WORLD else (fun w => gridStep p w)^[k] world,
            ALIVECELLS := 0, COMPLETEDTURNS := 0, NUMBEROFCONTINUES := 0 },
        deliverAll ((fun w => gridStep p w)^[k] world) s.NUMBEROFCONTINUES ++
          [CEvent.doneCancel]) := by
  intro k
  induction k with
  | zero =>
    intro t fuel world s hw hgo hcanc hlt
    cases fuel with
    | zero => omega
    | succ m =>
      rw [loopFrom, show sched t = Sig.cancel from by simpa using hcanc]
      simp [loopIter, cancelBranch]
  | succ k ih =>
    intro t fuel world s hw hgo hcanc hlt
    cases fuel with
    | zero => omega
    | succ m =>
      have hgot : sched t = Sig.go := hgo t le_rfl (by omega)
      have hstep : runGenerationWorld p world = some (gridStep p world) :=
        runGenerationWorld_eq hw hH hW
      have hcount : getNumAliveCells p (gridStep p world) =
          some (count255 p (gridStep p world)) :=
        getNumAliveCells_eq (gridStep_length p world) (gridStep_rows p world)
      rw [loopFrom, hgot]
      simp only [loopIter, hstep, hcount]
      rw [ih (t + 1) m (gridStep p world) _ (WF_gridStep p world)
          (fun u hu1 hu2 => hgo u (by omega) (by omega))
          (by rw [show t + 1 + k = t + (k + 1) from by omega]; exact hcanc) (by omega)]
      rw [← Function.iterate_succ_apply]
      cases k with
      | zero => simp
      | succ n => simp

/-! ### Concrete instances used by the witnesses -/

/-- 3×3 run parameters with a turn limit of 2. -/
def p33 : Params := { Turns := 2, Threads := 1, ImageWidth := 3, ImageHeight := 3 }

/-- A vertical blinker on the 3×3 torus. -/
def blinker : Grid := [[0, 255, 0], [0, 255, 0], [0, 255, 0]]

/-! ### Claim theorems -/

/-- C1: for every 0/255 grid and cell position, one generation of the
simulation loop sets that cell by the birth/survival rule with toroidal
wraparound: 8 Moore neighbours are counted at `(coordinate + offset) mod
extent` in both axes, an alive cell stays alive iff its count is 2 or 3, a
dead cell becomes alive iff its count is exactly 3, every other case is
dead. -/
theorem c1_generation_follows_rule {p : Params} {world : Grid} (hw : WF p world)
    (hH : 0 < p.ImageHeight) (hW : 0 < p.ImageWidth)
    {y x : Nat} (hy : y < p.ImageHeight.toNat) (hx : x < p.ImageWidth.toNat) :
    ∃ world2, runGenerationWorld p world = some world2 ∧
      cell world2 y x =
        specCellRule (cell world y x)
          (specAliveNeighbours world (y : Int) (x : Int) p.ImageHeight p.ImageWidth) :=
  ⟨gridStep p world, runGenerationWorld_eq hw hH hW, cell_gridStep p world hy hx⟩

theorem c1_witness :
    ∃ world2, runGenerationWorld p33 blinker = some world2 ∧
      cell world2 0 1 =
        specCellRule (cell blinker 0 1)
          (specAliveNeighbours blinker ((0 : Nat) : Int) ((1 : Nat) : Int)
            p33.ImageHeight p33.ImageWidth) :=
  c1_generation_follows_rule (by decide) (by decide) (by decide) (by decide) (by decide)

/-- C9: for a well-formed grid with positive extents and an in-range cell,
the wraparound index `(coordinate + offset + extent) mod extent` lies within
`[0, extent)` for every offset in `{-1, 0, 1}` in both axes, and the
neighbour counter never reaches an out-of-bounds (`none`) branch. -/
theorem c9_neighbour_indexing_inbounds {p : Params} {world : Grid} (hw : WF p world)
    (hH : 0 < p.ImageHeight) (hW : 0 < p.ImageWidth)
    {y x : Int} (hy0 : 0 ≤ y) (hy1 : y < p.ImageHeight) (hx0 : 0 ≤ x) (hx1 : x < p.ImageWidth) :
    (∀ off : Int, -1 ≤ off → off ≤ 1 →
      (0 ≤ mod (y + off) p.ImageHeight ∧ mod (y + off) p.ImageHeight < p.ImageHeight) ∧
      (0 ≤ mod (x + off) p.ImageWidth ∧ mod (x + off) p.ImageWidth < p.ImageWidth)) ∧
    (aliveNeighbours world y x p).isSome = true := by
  constructor
  · intro off h1 h2
    exact ⟨mod_bounds _ _ hH (by omega), mod_bounds _ _ hW (by omega)⟩
  · rw [aliveNeighbours_spec hw hH hW hy0 hy1 hx0 hx1]
    rfl

theorem c9_witness :
    (∀ off : Int, -1 ≤ off → off ≤ 1 →
      (0 ≤ mod (0 + off) p33.ImageHeight ∧ mod (0 + off) p33.ImageHeight < p33.ImageHeight) ∧
      (0 ≤ mod (2 + off) p33.ImageWidth ∧ mod (2 + off) p33.ImageWidth < p33.ImageWidth)) ∧
    (aliveNeighbours blinker 0 2 p33).isSome = true :=
  c9_neighbour_indexing_inbounds (by decide) (by decide) (by decide)
    (by decide) (by decide) (by decide) (by decide)

/-- C10: one generation preserves grid well-formedness (same dimensions,
every cell 0 or 255), and on the resulting grid the published alive count
(cells = 255, `getNumAliveCells`) agrees with the aliveness notion of the
neighbour count (cells ≠ 0). -/
theorem c10_wf_preserved {p : Params} {world : Grid} (hw : WF p world)
    (hH : 0 < p.ImageHeight) (hW : 0 < p.ImageWidth) :
    ∃ world2, runGenerationWorld p world = some world2 ∧ WF p world2 ∧
      getNumAliveCells p world2 = some (count255 p world2) ∧
      count255 p world2 = countNe0 p world2 :=
  ⟨gridStep p world, runGenerationWorld_eq hw hH hW, WF_gridStep p world,
   getNumAliveCells_eq (gridStep_length p world) (gridStep_rows p world),
   count255_eq_countNe0 (WF_gridStep p world)⟩

theorem c10_witness :
    ∃ world2, runGenerationWorld p33 blinker = some world2 ∧ WF p33 world2 ∧
      getNumAliveCells p33 world2 = some (count255 p33 world2) ∧
      count255 p33 world2 = countNe0 p33 world2 :=
  c10_wf_preserved (by decide) (by decide) (by decide)

theorem continueRegister_iterate (s : EngState) :
    ∀ n : Nat, (engineContinueRegister^[n] s).NUMBEROFCONTINUES =
      s.NUMBEROFCONTINUES + n := by
  intro n
  induction n with
  | zero => simp
  | succ m ih =>
    rw [Function.iterate_succ_apply', engineContinueRegister]
    simp only [ih]
    omega

/-- C2: with no pause or cancel signal ever delivered, `Start(p, grid)` runs
the whole simulation loop synchronously and returns the final grid, which is
the one-generation step applied exactly `p.Turns` times to the initial grid;
the returned grid is also the published `WORLD`. -/
theorem c2_start_runs_all_turns {p : Params} {world : Grid} {s : EngState}
    (sched : Nat → Sig) (hw : WF p world) (hH : 0 < p.ImageHeight)
    (hW : 0 < p.ImageWidth) (hT : 0 ≤ p.Turns) (hs : ∀ u, sched u = Sig.go) :
    ((p.Turns.toNat : Int) = p.Turns) ∧
    ∃ S TR, engineStart p sched world s =
        some ((fun w => gridStep p w)^[p.Turns.toNat] world, S, TR) ∧
      S.WORLD = (fun w => gridStep p w)^[p.Turns.toNat] world := by
  refine ⟨by omega, ?_⟩
  have h := loopFrom_go sched hH hW p.Turns.toNat 0 world { s with PARAMS := p } hw
    (fun u _ _ => hs u)
  unfold engineStart distributor
  rw [h]
  exact ⟨_, _, rfl, rfl⟩

theorem c2_witness :
    ((p33.Turns.toNat : Int) = p33.Turns) ∧
    ∃ S TR, engineStart p33 (fun _ => Sig.go) blinker initState =
        some ((fun w => gridStep p33 w)^[p33.Turns.toNat] blinker, S, TR) ∧
      S.WORLD = (fun w => gridStep p33 w)^[p33.Turns.toNat] blinker :=
  c2_start_runs_all_turns (fun _ => Sig.go) (by decide) (by decide) (by decide)
    (by decide) (fun u => rfl)

/-- C4: when a run completes all its turns with `N` waiters registered via
`Continue` (`NUMBEROFCONTINUES = N`, which is what `N` successive `Continue`
registrations produce), the loop zeroes the progress counters, sends the
final grid once per waiter — every delivered grid identical — and the waiter
count is zero afterwards. -/
theorem c4_completion_delivers_waiters {p : Params} {world : Grid} {s : EngState}
    {N : Int} (sched : Nat → Sig) (hw : WF p world) (hH : 0 < p.ImageHeight)
    (hW : 0 < p.ImageWidth) (hs : ∀ u, sched u = Sig.go)
    (hN : s.NUMBEROFCONTINUES = N) :
    (∀ s0 : EngState, ∀ n : Nat,
      (engineContinueRegister^[n] s0).NUMBEROFCONTINUES = s0.NUMBEROFCONTINUES + n) ∧
    ∃ G S TR, distributor p sched world s = some (G, S, TR) ∧
      TR = List.replicate N.toNat (CEvent.deliver G) ∧
      TR.length = N.toNat ∧
      (∀ e ∈ TR, e = CEvent.deliver G) ∧
      S.ALIVECELLS = 0 ∧ S.COMPLETEDTURNS = 0 ∧ S.NUMBEROFCONTINUES = 0 := by
  refine ⟨continueRegister_iterate, ?_⟩
  have h := loopFrom_go sched hH hW p.Turns.toNat 0 world { s with PARAMS := p } hw
    (fun u _ _ => hs u)
  unfold distributor
  rw [h]
  refine ⟨_, _, _, rfl, ?_, ?_, ?_, rfl, rfl, rfl⟩
  · simp [deliverAll, hN]
  · simp [deliverAll, hN]
  · intro e he
    simp only [deliverAll, List.mem_replicate] at he
    exact he.2

theorem c4_witness :
    (∀ s0 : EngState, ∀ n : Nat,
      (engineContinueRegister^[n] s0).NUMBEROFCONTINUES = s0.NUMBEROFCONTINUES + n) ∧
    ∃ G S TR, distributor p33 (fun _ => Sig.go) blinker
        { initState with NUMBEROFCONTINUES := 2 } = some (G, S, TR) ∧
      TR = List.replicate (2 : Int).toNat (CEvent.deliver G) ∧
      TR.length = (2 : Int).toNat ∧
      (∀ e ∈ TR, e = CEvent.deliver G) ∧
      S.ALIVECELLS = 0 ∧ S.COMPLETEDTURNS = 0 ∧ S.NUMBEROFCONTINUES = 0 :=
  c4_completion_delivers_waiters (fun _ => Sig.go) (by decide) (by decide) (by decide)
    (fun u => rfl) rfl

/-- C5: when the loop observes cancel at generation boundary `k`, it stops
there — the returned grid is the step function applied only `k` times,
whatever the schedule holds afterwards — zeroes the progress counters,
delivers that unfinished grid to every registered waiter (emptying the
waiter set) and signals cancellation-complete only after the deliveries;
the cancelling caller (`IsAlreadyRunning` with different parameters) resumes
and replies only after `doneCancel`. -/
theorem c5_cancel_boundary {p : Params} {world : Grid} {s : EngState} {k : Nat}
    (sched : Nat → Sig) (hw : WF p world) (hH : 0 < p.ImageHeight)
    (hW : 0 < p.ImageWidth) (hgo : ∀ u, u < k → sched u = Sig.go)
    (hc : sched k = Sig.cancel) (hk : k < p.Turns.toNat) :
    (∃ S, distributor p sched world s =
        some ((fun w => gridStep p w)^[k] world, S,
          deliverAll ((fun w => gridStep p w)^[k] world) s.NUMBEROFCONTINUES ++
            [CEvent.doneCancel]) ∧
      S.ALIVECELLS = 0 ∧ S.COMPLETEDTURNS = 0 ∧ S.NUMBEROFCONTINUES = 0 ∧
      (∀ e ∈ deliverAll ((fun w => gridStep p w)^[k] world) s.NUMBEROFCONTINUES,
        e = CEvent.deliver ((fun w => gridStep p w)^[k] world))) ∧
    (∀ (q : Params) (t fuel : Nat) (w : Grid) (s2 : EngState),
      s2.COMPLETEDTURNS - 1 > 0 → s2.PARAMS ≠ q →
      isAlreadyRunning q { phase := RunPhase.running t fuel w, state := s2 } =
        some (false,
          { phase := RunPhase.idle,
            state := { s2 with ALIVECELLS := 0, COMPLETEDTURNS := 0, NUMBEROFCONTINUES := 0 } },
          deliverAll w s2.NUMBEROFCONTINUES ++ [CEvent.doneCancel, CEvent.callerResumes])) := by
  constructor
  · have h := loopFrom_cancel sched hH hW k 0 p.Turns.toNat world { s with PARAMS := p } hw
      (fun u hu1 hu2 => hgo u (by omega)) (by simpa using hc) hk
    unfold distributor
    rw [h]
    refine ⟨_, rfl, rfl, rfl, rfl, ?_⟩
    intro e he
    simp only [deliverAll, List.mem_replicate] at he
    exact he.2
  · intro q t fuel w s2 hgt hne
    unfold isAlreadyRunning
    rw [if_pos hgt, if_neg hne]
    simp [cancelBranch]

theorem c5_witness :
    (∃ S, distributor p33 (fun u => if u = 1 then Sig.cancel else Sig.go)
          blinker { initState with NUMBEROFCONTINUES := 1 } =
        some ((fun w => gridStep p33 w)^[1] blinker, S,
          deliverAll ((fun w => gridStep p33 w)^[1] blinker) 1 ++ [CEvent.doneCancel]) ∧
      S.ALIVECELLS = 0 ∧ S.COMPLETEDTURNS = 0 ∧ S.NUMBEROFCONTINUES = 0 ∧
      (∀ e ∈ deliverAll ((fun w => gridStep p33 w)^[1] blinker) 1,
        e = CEvent.deliver ((fun w => gridStep p33 w)^[1] blinker))) ∧
    (∀ (q : Params) (t fuel : Nat) (w : Grid) (s2 : EngState),
      s2.COMPLETEDTURNS - 1 > 0 → s2.PARAMS ≠ q →
      isAlreadyRunning q { phase := RunPhase.running t fuel w, state := s2 } =
        some (false,
          { phase := RunPhase.idle,
            state := { s2 with ALIVECELLS := 0, COMPLETEDTURNS := 0, NUMBEROFCONTINUES := 0 } },
          deliverAll w s2.NUMBEROFCONTINUES ++ [CEvent.doneCancel, CEvent.callerResumes])) :=
  c5_cancel_boundary (fun u => if u = 1 then Sig.cancel else Sig.go) (by decide)
    (by decide) (by decide) (fun u hu => by interval_cases u; rfl) (by decide) (by decide)

/-- C6: a pause consumed at a generation boundary leaves the loop's grid and
the shared state untouched until the matching resume — the iteration is a
no-op on both — so the progress snapshot `Pause` replied with equals what
any `Save` issued while still paused returns. -/
theorem c6_pause_freezes_progress {p : Params} (sched : Nat → Sig)
    (t fuel : Nat) (world : Grid) (s : EngState) (hp : sched t = Sig.pause) :
    loopFrom p sched t (fuel + 1) world s = loopFrom p sched (t + 1) fuel world s ∧
    loopIter p (sched t) t world s = some (IterOut.next world s) ∧
    (enginePause s).1.CompletedTurns = (engineSave s).1.CompletedTurns ∧
    (enginePause s).1.World = (engineSave s).1.World := by
  refine ⟨?_, ?_, rfl, rfl⟩
  · rw [loopFrom, hp]
    rfl
  · rw [hp]
    rfl

theorem c6_witness :
    loopFrom p33 (fun _ => Sig.pause) 0 (3 + 1) blinker initState =
      loopFrom p33 (fun _ => Sig.pause) (0 + 1) 3 blinker initState ∧
    loopIter p33 ((fun (_ : Nat) => Sig.pause) 0) 0 blinker initState =
      some (IterOut.next blinker initState) ∧
    (enginePause initState).1.CompletedTurns = (engineSave initState).1.CompletedTurns ∧
    (enginePause initState).1.World = (engineSave initState).1.World :=
  c6_pause_freezes_progress (fun _ => Sig.pause) 0 3 blinker initState rfl

/-- C8: before any `Start`, `GetAliveCells` returns zero progress, and `Save`
— valid in any state — returns the last-published snapshot (`COMPLETEDTURNS`
and `WORLD`, zeros and the empty grid initially) without modifying any
state. -/
theorem c8_initial_reads : engineGetAliveCells initState =
      ({ AliveCells := 0, CompletedTurns := 0 }, initState) ∧
    engineSave initState = ({ CompletedTurns := 0, World := [] }, initState) ∧
    (∀ s : EngState,
      engineSave s = ({ CompletedTurns := s.COMPLETEDTURNS, World := s.WORLD }, s)) ∧
    (∀ s : EngState, engineGetAliveCells s =
      ({ AliveCells := s.ALIVECELLS, CompletedTurns := s.COMPLETEDTURNS }, s)) :=
  ⟨rfl, rfl, fun _ => rfl, fun _ => rfl⟩

/-- A configuration with a live loop that has completed exactly one turn,
whose stored parameters are `p33`. -/
def cRunOne : Config :=
  { phase := RunPhase.running 1 1 blinker,
    state := { WORLD := blinker, PARAMS := p33, ALIVECELLS := 3,
               COMPLETEDTURNS := 1, NUMBEROFCONTINUES := 0 } }

/-- C3 counterexample: a run is active and its stored parameters equal the
request, yet `IsAlreadyRunning` replies false — the guard
`COMPLETEDTURNS - 1 > 0` does not hold after only one completed turn. -/
theorem c3_counterexample :
    runActive cRunOne = true ∧ cRunOne.state.PARAMS = p33 ∧
      isAlreadyRunning p33 cRunOne = some (false, cRunOne, []) := by
  decide

/-- C3 (amended): `IsAlreadyRunning(p)` decides activity by the guard
`COMPLETEDTURNS - 1 > 0`, not by whether a loop is in flight: with
`COMPLETEDTURNS ≤ 1` it replies false and does nothing (even if a run is
active); with `COMPLETEDTURNS > 1` and stored parameters equal to `p` it
replies true; with `COMPLETEDTURNS > 1` and different parameters it runs the
cancel rendezvous with the live loop and replies false afterwards. -/
theorem c3_guarded_behaviour (p : Params) (c : Config) :
    (c.state.COMPLETEDTURNS ≤ 1 → isAlreadyRunning p c = some (false, c, [])) ∧
    (1 < c.state.COMPLETEDTURNS → c.state.PARAMS = p →
      isAlreadyRunning p c = some (true, c, [])) ∧
    (∀ (t fuel : Nat) (w : Grid), 1 < c.state.COMPLETEDTURNS → c.state.PARAMS ≠ p →
      c.phase = RunPhase.running t fuel w →
      isAlreadyRunning p c =
        some (false,
          { phase := RunPhase.idle,
            state := { c.state with
              ALIVECELLS := 0, COMPLETEDTURNS := 0, NUMBEROFCONTINUES := 0 } },
          deliverAll w c.state.NUMBEROFCONTINUES ++
            [CEvent.doneCancel, CEvent.callerResumes])) := by
  refine ⟨?_, ?_, ?_⟩
  · intro hle
    unfold isAlreadyRunning
    rw [if_neg (by omega)]
  · intro hgt heq
    unfold isAlreadyRunning
    rw [if_pos (by omega), if_pos heq]
  · intro t fuel w hgt hne hphase
    unfold isAlreadyRunning
    rw [if_pos (by omega), if_neg hne, hphase]
    simp [cancelBranch]

/-- A configuration with a live loop two turns in, stored parameters `p33`. -/
def cRunTwo : Config :=
  { phase := RunPhase.running 2 3 blinker,
    state := { WORLD := blinker, PARAMS := p33, ALIVECELLS := 3,
               COMPLETEDTURNS := 2, NUMBEROFCONTINUES := 1 } }

/-- A request with parameters different from `p33`. -/
def pOther : Params := { Turns := 9, Threads := 1, ImageWidth := 3, ImageHeight := 3 }

theorem c3_witness :
    isAlreadyRunning p33 cRunOne = some (false, cRunOne, []) ∧
    isAlreadyRunning p33 cRunTwo = some (true, cRunTwo, []) ∧
    isAlreadyRunning pOther cRunTwo =
      some (false,
        { phase := RunPhase.idle,
          state := { cRunTwo.state with
            ALIVECELLS := 0, COMPLETEDTURNS := 0, NUMBEROFCONTINUES := 0 } },
        deliverAll blinker cRunTwo.state.NUMBEROFCONTINUES ++
          [CEvent.doneCancel, CEvent.callerResumes]) :=
  ⟨(c3_guarded_behaviour p33 cRunOne).1 (by decide),
   (c3_guarded_behaviour p33 cRunTwo).2.1 (by decide) (by decide),
   (c3_guarded_behaviour pOther cRunTwo).2.2 2 3 blinker (by decide) (by decide) rfl⟩

/-- C7 counterexample: after one generation of the loop the storage of the
input grid holds the new generation, not its original values — the loop
copies `tempWorld` back into `world`, so the input grid is mutated. -/
theorem c7_counterexample :
    runGenerationWorld p33 blinker =
      some [[255, 255, 255], [255, 255, 255], [255, 255, 255]] ∧
    ([[255, 255, 255], [255, 255, 255], [255, 255, 255]] : Grid) ≠ blinker := by
  decide

/-- C7 (amended): the next generation is computed deterministically as a
pure function of the original input grid — `tempWorld` is filled entirely
from the unmodified input before any write-back — but the loop then copies
that result into the input grid's own storage, so after the per-generation
block the input grid holds the new generation rather than its original
values. -/
theorem c7_pure_value_inplace_storage {p : Params} {world : Grid} (hw : WF p world)
    (hH : 0 < p.ImageHeight) (hW : 0 < p.ImageWidth) :
    runGeneration p world = some (gridStep p world) ∧
    runGenerationWorld p world = some (gridStep p world) :=
  ⟨runGeneration_eq hw hH hW, runGenerationWorld_eq hw hH hW⟩

theorem c7_witness :
    runGeneration p33 blinker = some (gridStep p33 blinker) ∧
    runGenerationWorld p33 blinker = some (gridStep p33 blinker) :=
  c7_pure_value_inplace_storage (by decide) (by decide) (by decide)
